import Mathlib

/-!
Shallow embedding of the streaming video-detection client
(`src/VideoRealtimeDemo.tsx` and `src/api/driverDetectionApi.ts`,
the latter re-exported by `src/constants/taskALabels.ts`).

The embedding models, from the source:
  * the SSE event decoder inside `predictVideoSSE` (buffer + split on
    newline + `data: ` marker + per-line JSON parse with per-line error
    recovery), parameterized by the JSON parse function;
  * the message-dispatch callback installed by `startProcessing`
    (metadata / event / summary / done / error handling, progress
    derivation with JavaScript numeric semantics for division by zero);
  * the playback reconciler `handleVideoTimeUpdate` (backward scan for
    the newest event whose non-null `time_s` has been reached);
  * the reset paths `handleFile` and `startProcessing`, the cancellation
    path `stopProcessing`, and the fetch `catch` handler that filters
    `AbortError` out of the error callback;
  * the danger-alert latch effects (`alertShown`).

Playback times and probabilities are modelled as rationals; JavaScript
numbers that can become `NaN`/`Infinity` (the progress percentage) are
modelled by the type `JSNum`.
-/

namespace VideoDemo

/-- JavaScript number results for the progress computation: a finite
value, `NaN`, or a signed infinity. -/
inductive JSNum where
  | num (q : ℚ)
  | nan
  | posInf
  | negInf
deriving DecidableEq, Repr

/-- JavaScript division `a / b` on finite operands: division by zero
yields `NaN` for `0 / 0` and a signed infinity otherwise. -/
def jsDiv (a b : ℚ) : JSNum :=
  if b = 0 then
    if a = 0 then JSNum.nan else if 0 < a then JSNum.posInf else JSNum.negInf
  else JSNum.num (a / b)

/-- JavaScript multiplication of the division result by the finite
constant 100, as in `(frame_idx / total_frames) * 100`. -/
def jsMul100 : JSNum → JSNum
  | JSNum.num q => JSNum.num (q * 100)
  | JSNum.nan => JSNum.nan
  | JSNum.posInf => JSNum.posInf
  | JSNum.negInf => JSNum.negInf

/-- JavaScript `Math.min(x, c)` for a finite second argument: `NaN`
propagates, `Infinity` clamps to `c`. -/
def jsMin (x : JSNum) (c : ℚ) : JSNum :=
  match x with
  | JSNum.num q => JSNum.num (min q c)
  | JSNum.nan => JSNum.nan
  | JSNum.posInf => JSNum.num c
  | JSNum.negInf => JSNum.negInf

/-- Discriminant of the `StreamEvent` tagged union (`type` field). -/
inductive MsgType where
  | metadata
  | event
  | summary
  | done
  | error
deriving DecidableEq, Repr

/-- The `StreamEvent` record of `driverDetectionApi.ts`, restricted to
the fields the modelled code reads.  Optional fields are `Option`s; for
`time_s` and `alert`, `none` covers both JavaScript `null` and
`undefined` (the code tests both together). -/
structure StreamEvent where
  type : MsgType
  total_frames : Option Int := none
  fps : Option ℚ := none
  frame_idx : Option Int := none
  time_s : Option ℚ := none
  stage : Option Int := none
  distraction_detected : Option Bool := none
  alert : Option String := none
  detect_count : Option Int := none
  alert_triggered : Option Bool := none
  message : Option String := none
deriving DecidableEq, Repr

/-- Captured stream metadata (`total_frames`, `fps`), as stored by the
`metadata` branch of the dispatch callback. -/
structure Metadata where
  total_frames : Int
  fps : ℚ
deriving DecidableEq, Repr

/-- The React component state of `VideoRealtimeDemo` that the core logic
reads and writes. -/
structure UIState where
  file : Bool
  processing : Bool
  error : Option String
  metadata : Option Metadata
  events : List StreamEvent
  summary : Option StreamEvent
  currentEventIdx : Int
  progress : JSNum
  alertShown : Bool
deriving DecidableEq, Repr

/-- Initial component state (`useState` defaults). -/
def initState : UIState :=
  { file := false
    processing := false
    error := none
    metadata := none
    events := []
    summary := none
    currentEventIdx := -1
    progress := JSNum.num 0
    alertShown := false }

/-- JavaScript `x || d` for an optional string (the empty string is
falsy), as in `event.message || "Có lỗi xảy ra"`. -/
def jsOrString (x : Option String) (d : String) : String :=
  match x with
  | some s => if s = "" then d else s
  | none => d

/-- JavaScript `x || 0` for an optional integer (`0` is falsy but
`0 || 0 = 0`), as in `event.frame_idx || 0`. -/
def jsOrInt (x : Option Int) : Int :=
  match x with
  | some n => n
  | none => 0

/-- Progress percentage exactly as computed in the `event` branch:
`Math.min(((event.frame_idx || 0) / metadata.total_frames) * 100, 100)`. -/
def progressOf (frameIdx : Int) (totalFrames : Int) : JSNum :=
  jsMin (jsMul100 (jsDiv (frameIdx : ℚ) (totalFrames : ℚ))) 100

/-- The message-dispatch callback passed to `predictVideoSSE` by
`startProcessing` (lines 177-207 of `VideoRealtimeDemo.tsx`).  The
callback is created once per session and closes over the `metadata`
binding of the render in which the user clicked start; later
`setMetadata` calls re-render the component but never rebind the
already-installed callback, so the `metadata` tested by the event branch
at line 193 stays frozen at its click-time value (a stale closure).
That frozen value is the explicit `captured` argument here; the
`metadata` branch still writes the evolving store (`s.metadata`), which
the UI renders, but the progress computation never reads the store. -/
def dispatch (captured : Option Metadata) (s : UIState) (e : StreamEvent) :
    UIState :=
  match e.type with
  | MsgType.metadata =>
      { s with metadata := some { total_frames := jsOrInt e.total_frames
                                  fps := (e.fps.getD 0) } }
  | MsgType.event =>
      let s' := { s with events := s.events ++ [e] }
      match captured with
      | some md => { s' with progress := progressOf (jsOrInt e.frame_idx) md.total_frames }
      | none => s'
  | MsgType.summary => { s with summary := some e, processing := false }
  | MsgType.done => { s with processing := false }
  | MsgType.error =>
      { s with error := some (jsOrString e.message "Có lỗi xảy ra")
               processing := false }

/-- Backward scan of `handleVideoTimeUpdate`: starting from the last
index, find the first (hence largest) index whose `time_s` is non-null
and `≤ t`; `-1` when none qualifies. -/
def findLatestIdx (times : List (Option ℚ)) (t : ℚ) : Int :=
  match times with
  | [] => -1
  | x :: xs =>
    let r := findLatestIdx xs t
    if 0 ≤ r then r + 1
    else
      match x with
      | some ts => if ts ≤ t then 0 else -1
      | none => -1

/-- Current-event selection over a timeline: `findLatestIdx` applied to
the events' `time_s` fields. -/
def findCurrentIdx (events : List StreamEvent) (t : ℚ) : Int :=
  findLatestIdx (events.map (fun e => e.time_s)) t

/-- The `onTimeUpdate` handler `handleVideoTimeUpdate`, with the video's
`currentTime` passed as `t`.  The stored index is written only when a
qualifying index was found and differs from the stored one. -/
def handleVideoTimeUpdate (s : UIState) (t : ℚ) : UIState :=
  if s.events.length = 0 then s
  else
    let foundIdx := findCurrentIdx s.events t
    if 0 ≤ foundIdx ∧ foundIdx ≠ s.currentEventIdx then
      { s with currentEventIdx := foundIdx }
    else s

/-- The file-selection handler `handleFile`; `isVideo` models
`f.type.startsWith("video/")`. -/
def handleFile (s : UIState) (isVideo : Bool) : UIState :=
  if ¬ isVideo then
    { s with error := some "Vui lòng chọn file video (.mp4/.avi/.mov/.mkv)" }
  else
    { s with error := none
             file := true
             events := []
             metadata := none
             summary := none
             currentEventIdx := -1
             progress := JSNum.num 0
             alertShown := false }

/-- The synchronous state reset performed by `startProcessing` before it
issues the new request. -/
def startReset (s : UIState) : UIState :=
  { s with processing := true
           error := none
           events := []
           metadata := none
           summary := none
           currentEventIdx := -1
           progress := JSNum.num 0
           alertShown := false }

/-- The cancellation/stop handler `stopProcessing` and the session layer
around `predictVideoSSE`.  `abortRef` models `abortControllerRef.current`
(the controller of the most recently started session, identified by a
session number); `live` models which session, if any, can still dispatch
messages (aborting a session removes it); `captured` is the `metadata`
value the live session's `onEvent` closure captured when the session was
started — the store value of the click-time render, frozen for the whole
session. -/
structure Sys where
  ui : UIState
  abortRef : Option Nat
  live : Option Nat
  captured : Option Metadata
  nextSid : Nat
deriving DecidableEq, Repr

/-- Initial session system: no controller, no live session. -/
def initSys : Sys :=
  { ui := initState, abortRef := none, live := none, captured := none
    nextSid := 0 }

/-- The `startProcessing` handler: returns unchanged when no file is
selected; otherwise aborts the previous controller (if any), resets the
UI state, and installs a fresh controller for a new live session.  The
new session's callback closes over the click-time render's `metadata`
binding — the store value *before* the reset, since the `setMetadata(null)`
it queues never rebinds the closure. -/
def startProcessing (sys : Sys) : Sys :=
  if ¬ sys.ui.file then sys
  else
    { ui := startReset sys.ui
      abortRef := some sys.nextSid
      live := some sys.nextSid
      captured := sys.ui.metadata
      nextSid := sys.nextSid + 1 }

/-- Dispatch of one decoded message by the session numbered `sid`: it
reaches the UI state only while that session is still live (an aborted
session's fetch loop stops before calling `onEvent` again), and it runs
with the live session's captured metadata. -/
def dispatchSys (sys : Sys) (sid : Nat) (e : StreamEvent) : Sys :=
  if sys.live = some sid then
    { sys with ui := dispatch sys.captured sys.ui e }
  else sys

/-- The `stopProcessing` handler: aborts the current controller when one
is present, nulls the ref, and clears the `processing` flag.  It is a
total function: invoking it never raises. -/
def stopProcessing (sys : Sys) : Sys :=
  let sys1 :=
    match sys.abortRef with
    | some sid =>
        { sys with live := if sys.live = some sid then none else sys.live
                   abortRef := none }
    | none => sys
  { sys1 with ui := { sys1.ui with processing := false } }

/-- The two ways the fetch promise chain of `predictVideoSSE` can
reject: transport abortion (`err.name === "AbortError"`) or a genuine
failure carrying a message. -/
inductive FetchErr where
  | abortError
  | netError (msg : String)
deriving DecidableEq, Repr

/-- The `catch` handler of `predictVideoSSE`: the message forwarded to
the caller's error callback, or `none` when nothing is forwarded.
`AbortError` is returned away before the callback is reached. -/
def catchHandler (e : FetchErr) : Option String :=
  match e with
  | FetchErr.abortError => none
  | FetchErr.netError m => some m

/-- Event-decoder state inside `predictVideoSSE`: the carried partial
line (`buffer`) and the messages already emitted via `onEvent`. -/
structure DecSt where
  buffer : List Char
  out : List StreamEvent
deriving DecidableEq, Repr

/-- Splitting of `buffer.split("\n")` followed by `lines.pop()`: the
complete lines (in order, newline stripped) and the trailing remainder
after the last newline. -/
def splitLines : List Char → List (List Char) × List Char
  | [] => ([], [])
  | c :: cs =>
    let p := splitLines cs
    if c = '\n' then ([] :: p.1, p.2)
    else
      match p.1 with
      | [] => ([], c :: p.2)
      | l :: ls => ((c :: l) :: ls, p.2)

/-- The `data: ` event marker checked by `line.startsWith("data: ")`. -/
def dataMarker : List Char := ['d', 'a', 't', 'a', ':', ' ']

/-- Per-line handling inside the chunk loop: a line is considered only
when it starts with the marker; the marker is stripped (`line.slice(6)`)
and the rest is given to the JSON parse.  A parse failure (`none`) is
caught, logged and skipped — no message is emitted for that line. -/
def procLine (parse : List Char → Option StreamEvent) (l : List Char) :
    Option StreamEvent :=
  if l.take 6 = dataMarker then parse (l.drop 6) else none

/-- Processing of one received chunk: append to the buffer, split into
complete lines plus remainder, emit the parsed messages of complete
marker lines. -/
def feed (parse : List Char → Option StreamEvent) (st : DecSt)
    (chunk : List Char) : DecSt :=
  let p := splitLines (st.buffer ++ chunk)
  { buffer := p.2, out := st.out ++ p.1.filterMap (procLine parse) }

/-- The whole decoder run of one session over the received chunks. -/
def decodeChunks (parse : List Char → Option StreamEvent)
    (chunks : List (List Char)) : DecSt :=
  chunks.foldl (feed parse) { buffer := [], out := [] }

/-- Concatenation of the chunk sequence into the logical byte stream. -/
def joinChunks (chunks : List (List Char)) : List Char :=
  chunks.foldr (fun c acc => c ++ acc) []

/-- Wire encoding of a list of lines, each terminated by a newline. -/
def linesToStream (ls : List (List Char)) : List Char :=
  ls.foldr (fun l acc => l ++ '\n' :: acc) []

/-- One complete successful-transport session run: every decoded message
is dispatched in order, under the session's captured metadata; when the
reader reports end of stream the loop just breaks and the promise chain
completes without touching the error channel. -/
def runSession (parse : List Char → Option StreamEvent)
    (captured : Option Metadata) (chunks : List (List Char))
    (s : UIState) : UIState :=
  (decodeChunks parse chunks).out.foldl (dispatch captured) s

/-- The danger-alert latch effect (lines 107-114): while playing with a
valid current index whose event carries `alert = "ATTACK_DETECTED"`, the
latch is set; otherwise it is left alone. -/
def latchStep (playing : Bool) (events : List StreamEvent)
    (idx : Int) (alertShown : Bool) : Bool :=
  if ¬ playing ∨ idx < 0 then alertShown
  else
    match events.get? idx.toNat with
    | some e =>
        if e.alert = some "ATTACK_DETECTED" ∧ ¬ alertShown then true
        else alertShown
    | none => alertShown

/-- The latch-reset effect (lines 101-105): when the summary state is
cleared (falsy), the latch is reset to `false`. -/
def latchClear (summary : Option StreamEvent) (alertShown : Bool) : Bool :=
  if summary = none then false else alertShown

/-- Qualifying predicate of the reconciler: index `i` holds an event
whose `time_s` is non-null and has been reached by playback time `t`. -/
def qualifies (times : List (Option ℚ)) (t : ℚ) (i : ℕ) : Prop :=
  ∃ ts : ℚ, times.get? i = some (some ts) ∧ ts ≤ t

/-- Sample frame event with the given non-null timestamp. -/
def exEvent (q : ℚ) : StreamEvent :=
  { type := MsgType.event, time_s := some q }

/-- Timeline state of the spec's worked example: events at
`time_s = [0, 1, 2, 5]`, fresh stored index. -/
def exState : UIState :=
  { initState with events := [exEvent 0, exEvent 1, exEvent 2, exEvent 5] }

/-- Reachable state whose stored current index is `0`: select a file,
start a session (whose closure captured `metadata = null`), receive one
event at `time_s = 0`, play to `t = 0`. -/
def c1State : UIState :=
  handleVideoTimeUpdate
    (dispatch none (startReset (handleFile initState true)) (exEvent 0)) 0

/-- Concrete stand-in for `JSON.parse` used in closed witnesses: decodes
the one-character document `e` to an event message. -/
def parseX : List Char → Option StreamEvent :=
  fun l => if l = ['e'] then some (exEvent 1) else none

/-- One complete wire line carrying the `e` document. -/
def sampleStream : List Char := dataMarker ++ ['e', '\n']

/-- A well-formed marker line (parsed by `parseX`). -/
def goodLine : List Char := dataMarker ++ ['e']

/-- A malformed marker line (rejected by `parseX`). -/
def badLine : List Char := dataMarker ++ ['z']

/-- Metadata message of the spec's end-to-end scenario
(`total_frames = 100`, `fps = 25`). -/
def mdMsg100 : StreamEvent :=
  { type := MsgType.metadata, total_frames := some 100, fps := some 25 }

/-- Event message at `frame_idx = 50`. -/
def evMsg50 : StreamEvent :=
  { type := MsgType.event, frame_idx := some 50, time_s := some 2 }

/-- Metadata message claiming `total_frames = 0`. -/
def mdMsg0 : StreamEvent :=
  { type := MsgType.metadata, total_frames := some 0, fps := some 25 }

/-- Event message at `frame_idx = 0`. -/
def evMsg0 : StreamEvent :=
  { type := MsgType.event, frame_idx := some 0, time_s := some 0 }

/-- First summary message (`detect_count = 1`). -/
def sumMsgA : StreamEvent :=
  { type := MsgType.summary, detect_count := some 1 }

/-- Second, conflicting summary message (`detect_count = 2`). -/
def sumMsgB : StreamEvent :=
  { type := MsgType.summary, detect_count := some 2 }

/-- Event carrying the danger marker. -/
def atkEvent : StreamEvent :=
  { type := MsgType.event, time_s := some 2, alert := some "ATTACK_DETECTED" }

/-- A system with one finished prior session (number 0) still holding
its controller, about to start session 1. -/
def sys0 : Sys :=
  { ui := { initState with file := true }
    abortRef := some 0
    live := some 0
    captured := none
    nextSid := 1 }

/-- Fresh system with a file selected and no session yet. -/
def c4Sys0 : Sys :=
  { ui := { initState with file := true }
    abortRef := none
    live := none
    captured := none
    nextSid := 0 }

/-- First session of the spec's end-to-end scenario: started from a
fresh state (so its closure captured `metadata = null`), it receives
`metadata { total_frames = 100 }` and then an event at
`frame_idx = 50`. -/
def c4SysA : Sys :=
  dispatchSys (dispatchSys (startProcessing c4Sys0) 0 mdMsg100) 0 evMsg50

/-- Restarted session with a stale capture: the first session stored
metadata with `total_frames = 0`; clicking start again captures that
stale value, and the new session then receives an event at
`frame_idx = 0`. -/
def c4SysB : Sys :=
  dispatchSys
    (startProcessing (dispatchSys (startProcessing c4Sys0) 0 mdMsg0)) 1 evMsg0

/-- Splitting a concatenation: the complete lines of `a ++ b` are the
complete lines of `a` followed by those of `a`'s remainder prefixed to
`b`, and the final remainder comes from the latter. -/
theorem splitLines_append (a b : List Char) :
    splitLines (a ++ b) =
      ((splitLines a).1 ++ (splitLines ((splitLines a).2 ++ b)).1,
       (splitLines ((splitLines a).2 ++ b)).2) := by
  induction a with
  | nil => simp [splitLines]
  | cons c cs ih =>
    by_cases hc : c = '\n'
    · subst hc
      simp [splitLines, ih]
    · rcases h1 : (splitLines cs).1 with _ | ⟨l, ls⟩
      · rcases h2 : (splitLines ((splitLines cs).2 ++ b)).1 with _ | ⟨l', ls'⟩
        · simp [splitLines, hc, ih, h1, h2]
        · simp [splitLines, hc, ih, h1, h2]
      · simp [splitLines, hc, ih, h1]

/-- Feeding two chunks one after the other is feeding their
concatenation: the decoder is chunk-boundary-independent step-wise. -/
theorem feed_append (parse : List Char → Option StreamEvent) (st : DecSt)
    (c1 c2 : List Char) :
    feed parse (feed parse st c1) c2 = feed parse st (c1 ++ c2) := by
  have h := splitLines_append (st.buffer ++ c1) c2
  simp [feed, ← List.append_assoc, h, List.filterMap_append]

/-- Folding the decoder over a chunk list, after one initial chunk, is a
single feed of the concatenated stream. -/
theorem foldl_feed_join (parse : List Char → Option StreamEvent) (st : DecSt)
    (c : List Char) (chunks : List (List Char)) :
    chunks.foldl (feed parse) (feed parse st c) =
      feed parse st (c ++ joinChunks chunks) := by
  induction chunks generalizing c with
  | nil => simp [joinChunks]
  | cons c' cs ih =>
    simp only [List.foldl_cons, feed_append, joinChunks, List.foldr_cons]
    rw [ih (c ++ c')]
    simp [joinChunks, List.append_assoc]

/-- The full decoder run over any chunking equals the run over the
single-chunk stream obtained by concatenation. -/
theorem decodeChunks_eq_join (parse : List Char → Option StreamEvent)
    (chunks : List (List Char)) :
    decodeChunks parse chunks =
      feed parse { buffer := [], out := [] } (joinChunks chunks) := by
  cases chunks with
  | nil => simp [decodeChunks, joinChunks, feed, splitLines]
  | cons c cs =>
    simp only [decodeChunks, List.foldl_cons]
    exact foldl_feed_join parse _ c cs

/-- Splitting a stream that starts with a newline-free line followed by
a newline: that line is complete, the rest splits recursively. -/
theorem splitLines_line (l rest : List Char) (h : '\n' ∉ l) :
    splitLines (l ++ '\n' :: rest) =
      (l :: (splitLines rest).1, (splitLines rest).2) := by
  induction l with
  | nil => simp [splitLines]
  | cons c l' ih =>
    have hc : c ≠ '\n' := fun hcn => h (hcn ▸ List.mem_cons_self c l')
    have hl' : '\n' ∉ l' := fun hm => h (List.mem_cons_of_mem c hm)
    simp [splitLines, hc, ih hl']

/-- A wire stream of newline-terminated, newline-free lines splits into
exactly those lines with an empty remainder. -/
theorem splitLines_linesToStream (ls : List (List Char))
    (h : ∀ l ∈ ls, '\n' ∉ l) :
    splitLines (linesToStream ls) = (ls, []) := by
  induction ls with
  | nil => rfl
  | cons l ls ih =>
    have hl : '\n' ∉ l := h l (List.mem_cons_self l ls)
    have hls : ∀ x ∈ ls, '\n' ∉ x := fun x hx => h x (List.mem_cons_of_mem l hx)
    simp [linesToStream] at ih ⊢
    rw [splitLines_line l _ hl, ih hls]

/-- When the per-line treatment succeeds on every line, `filterMap`
keeps the list length. -/
theorem length_filterMap_of_isSome {α β : Type} (f : α → Option β)
    (l : List α) (h : ∀ x ∈ l, (f x).isSome) :
    (l.filterMap f).length = l.length := by
  induction l with
  | nil => rfl
  | cons x xs ih =>
    have hx : (f x).isSome := h x (List.mem_cons_self x xs)
    have hxs : ∀ y ∈ xs, (f y).isSome := fun y hy => h y (List.mem_cons_of_mem x hy)
    rcases ho : f x with _ | b
    · rw [ho] at hx; simp at hx
    · simp [List.filterMap_cons, ho, ih hxs]

/-- Characterization of the backward scan: either nothing qualifies and
the result is `-1`, or the result is the largest qualifying index. -/
theorem findLatestIdx_spec (times : List (Option ℚ)) (t : ℚ) :
    (findLatestIdx times t = -1 ∧ ∀ i, ¬ qualifies times t i) ∨
    (∃ i : ℕ, findLatestIdx times t = (i : ℤ) ∧ qualifies times t i ∧
      ∀ j : ℕ, i < j → ¬ qualifies times t j) := by
  induction times with
  | nil =>
    left
    refine ⟨rfl, fun i hq => ?_⟩
    rcases hq with ⟨ts, hget, _⟩
    simp at hget
  | cons x xs ih =>
    rcases ih with ⟨h1, h2⟩ | ⟨i, h1, h2, h3⟩
    · have hr : ¬ (0 ≤ findLatestIdx xs t) := by omega
      rcases hx : x with _ | ts
      · left
        constructor
        · simp [findLatestIdx, h1]
        · intro i hq
          rcases hq with ⟨ts', hget, hle⟩
          cases i with
          | zero => simp [hx] at hget
          | succ j => exact h2 j ⟨ts', by simpa using hget, hle⟩
      · by_cases hle : ts ≤ t
        · right
          refine ⟨0, ?_, ⟨ts, by simp [hx], hle⟩, ?_⟩
          · simp [findLatestIdx, h1, hx, hle]
          · intro j hj
            cases j with
            | zero => omega
            | succ j' =>
              intro hq
              rcases hq with ⟨ts', hget, hle'⟩
              exact h2 j' ⟨ts', by simpa using hget, hle'⟩
        · left
          constructor
          · simp [findLatestIdx, h1, hx, hle]
          · intro i hq
            rcases hq with ⟨ts', hget, hle'⟩
            cases i with
            | zero =>
              simp [hx] at hget
              exact hle (hget ▸ hle')
            | succ j => exact h2 j ⟨ts', by simpa using hget, hle'⟩
    · right
      refine ⟨i + 1, ?_, ?_, ?_⟩
      · have : (0 : ℤ) ≤ (i : ℤ) := Int.ofNat_nonneg i
        simp [findLatestIdx, h1, this]
      · rcases h2 with ⟨ts, hget, hle⟩
        exact ⟨ts, by simpa using hget, hle⟩
      · intro j hj hq
        cases j with
        | zero => omega
        | succ j' =>
          rcases hq with ⟨ts', hget, hle'⟩
          exact h3 j' (by omega) ⟨ts', by simpa using hget, hle'⟩

/-- Dispatch leaves the `error` state alone for every non-`error`
message. -/
theorem dispatch_error_eq (cap : Option Metadata) (s : UIState)
    (e : StreamEvent) (h : e.type ≠ MsgType.error) :
    (dispatch cap s e).error = s.error := by
  cases htype : e.type
  · simp [dispatch, htype]
  · cases hmd : cap <;> simp [dispatch, htype, hmd]
  · simp [dispatch, htype]
  · simp [dispatch, htype]
  · exact absurd htype h

/-- Dispatch leaves the `processing` flag alone for every message other
than `summary`, `done` and `error`. -/
theorem dispatch_processing_eq (cap : Option Metadata) (s : UIState)
    (e : StreamEvent)
    (h : e.type ≠ MsgType.summary ∧ e.type ≠ MsgType.done ∧
      e.type ≠ MsgType.error) :
    (dispatch cap s e).processing = s.processing := by
  cases htype : e.type
  · simp [dispatch, htype]
  · cases hmd : cap <;> simp [dispatch, htype, hmd]
  · exact absurd htype h.1
  · exact absurd htype h.2.1
  · exact absurd htype h.2.2

/-- Folded dispatch of error-free messages leaves `error` alone. -/
theorem foldl_dispatch_error (cap : Option Metadata) (l : List StreamEvent)
    (s : UIState) (h : ∀ m ∈ l, m.type ≠ MsgType.error) :
    (l.foldl (dispatch cap) s).error = s.error := by
  induction l generalizing s with
  | nil => rfl
  | cons e es ih =>
    rw [List.foldl_cons,
      ih (dispatch cap s e) (fun m hm => h m (List.mem_cons_of_mem e hm)),
      dispatch_error_eq cap s e (h e (List.mem_cons_self e es))]

/-- Folded dispatch of messages that are neither `summary`, `done` nor
`error` leaves the `processing` flag alone. -/
theorem foldl_dispatch_processing (cap : Option Metadata)
    (l : List StreamEvent) (s : UIState)
    (h : ∀ m ∈ l, m.type ≠ MsgType.summary ∧ m.type ≠ MsgType.done ∧
      m.type ≠ MsgType.error) :
    (l.foldl (dispatch cap) s).processing = s.processing := by
  induction l generalizing s with
  | nil => rfl
  | cons e es ih =>
    rw [List.foldl_cons,
      ih (dispatch cap s e) (fun m hm => h m (List.mem_cons_of_mem e hm)),
      dispatch_processing_eq cap s e (h e (List.mem_cons_self e es))]

/-- Stale dispatches (session numbers different from the live one) leave
the whole system untouched. -/
theorem foldl_dispatchSys_stale (stale : List (Nat × StreamEvent))
    (sys : Sys) (n : Nat) (hl : sys.live = some n)
    (hs : ∀ p ∈ stale, p.1 ≠ n) :
    stale.foldl (fun s2 p => dispatchSys s2 p.1 p.2) sys = sys := by
  induction stale with
  | nil => rfl
  | cons p ps ih =>
    have hne : sys.live ≠ some p.1 := by
      rw [hl]
      intro hcon
      exact hs p (List.mem_cons_self p ps) (Option.some_injective _ hcon).symm
    have hd : dispatchSys sys p.1 p.2 = sys := by
      simp only [dispatchSys]
      rw [if_neg hne]
    rw [List.foldl_cons, hd]
    exact ih (fun q hq => hs q (List.mem_cons_of_mem p hq))

/-- C5: cancellation is filtered out of the error-reporting path (the
`AbortError` branch of the `catch` returns without calling the error
callback, while genuine network failures are forwarded), and the stop
handler is an idempotent total function that never touches the error
state — so invoking the cancellation handle twice, or after natural
completion, neither raises nor triggers the error callback. -/
theorem cancellation_not_error :
    catchHandler FetchErr.abortError = none ∧
    (∀ m, catchHandler (FetchErr.netError m) = some m) ∧
    (∀ sys : Sys, stopProcessing (stopProcessing sys) = stopProcessing sys) ∧
    (∀ sys : Sys, (stopProcessing sys).ui.error = sys.ui.error) := by
  refine ⟨rfl, fun m => rfl, fun sys => ?_, fun sys => ?_⟩
  · rcases sys with ⟨⟨f, p, er, md, ev, su, ci, pr, al⟩, aref, live, cap, n⟩
    rcases aref with _ | sid <;> simp [stopProcessing]
  · rcases sys with ⟨⟨f, p, er, md, ev, su, ci, pr, al⟩, aref, live, cap, n⟩
    rcases aref with _ | sid <;> simp [stopProcessing]

/-- C7 (amended): a second `summary` message is not ignored — the
dispatch branch unconditionally records the incoming summary
(last-write-wins) and clears the `processing` flag — but it never
crashes and leaves the Timeline, metadata and current index unchanged. -/
theorem summary_last_write_wins (cap : Option Metadata) (s : UIState)
    (e : StreamEvent) (h : e.type = MsgType.summary) :
    (dispatch cap s e).summary = some e ∧
    (dispatch cap s e).events = s.events ∧
    (dispatch cap s e).processing = false ∧
    (dispatch cap s e).metadata = s.metadata ∧
    (dispatch cap s e).currentEventIdx = s.currentEventIdx := by
  simp [dispatch, h]

/-- Witness for `summary_last_write_wins` at a concrete duplicate pair. -/
theorem summary_last_write_wins_witness :
    (dispatch none (dispatch none initState sumMsgA) sumMsgB).summary =
      some sumMsgB :=
  (summary_last_write_wins none (dispatch none initState sumMsgA) sumMsgB
    (by decide)).1

/-- C7 counterexample: after a first summary has been recorded,
dispatching a second, different summary changes the stored summary — the
second write is applied, not ignored. -/
theorem duplicate_summary_overwrites_cex :
    (dispatch none (dispatch none initState sumMsgA) sumMsgB).summary ≠
      (dispatch none initState sumMsgA).summary := by decide

/-- C9: the danger-alert banner is a one-shot latch — it is set the
first time the current event carries `alert = "ATTACK_DETECTED"` while
media is playing, any further observations (danger or not) keep it set,
and it is reset to `false` exactly by the summary-cleared effect, which
a session reset triggers by clearing the summary together with the
latch. -/
theorem danger_alert_latch_spec :
    (∀ events (idx : Int) e, 0 ≤ idx → events.get? idx.toNat = some e →
      e.alert = some "ATTACK_DETECTED" → latchStep true events idx false = true) ∧
    (∀ playing events idx, latchStep playing events idx true = true) ∧
    (∀ events (obs : List (Bool × Int)),
      obs.foldl (fun a o => latchStep o.1 events o.2 a) true = true) ∧
    (∀ a, latchClear none a = false) ∧
    (∀ e a, latchClear (some e) a = a) ∧
    (∀ s : UIState, (startReset s).alertShown = false ∧
      (startReset s).summary = none) := by
  have hstay : ∀ playing events idx, latchStep playing events idx true = true := by
    intro playing events idx
    unfold latchStep
    split
    · rfl
    · cases events.get? idx.toNat with
      | none => rfl
      | some e => simp
  refine ⟨?_, hstay, ?_, fun a => rfl, fun e a => by simp [latchClear], fun s => ⟨rfl, rfl⟩⟩
  · intro events idx e h1 h2 h3
    have hnl : ¬ idx < 0 := not_lt.mpr h1
    unfold latchStep
    rw [if_neg (by simp [hnl]), h2]
    simp [h3]
  · intro events obs
    induction obs with
    | nil => rfl
    | cons o os ih => rw [List.foldl_cons, hstay o.1 events o.2]; exact ih

/-- Witness for `danger_alert_latch_spec`: the latch fires on a concrete
danger frame observed during playback. -/
theorem danger_alert_latch_spec_witness :
    latchStep true [atkEvent] 0 false = true :=
  danger_alert_latch_spec.1 [atkEvent] 0 atkEvent (by decide) (by decide)
    (by decide)

/-- C4 (amended): the progress computation reads the metadata the
session's callback captured when the session was started (the click-time
render's binding, frozen by the stale closure), never the metadata
message of the session itself.  When that captured metadata is null —
as it is for every session started from a fresh or newly selected file —
the `if (metadata)` guard fails and progress is left unchanged for the
whole session; when the captured `total_frames` is positive the stored
progress equals `min((frame_idx / total_frames) * 100, 100)`, which lies
in `[0, 100]` for non-negative `frame_idx`; and when the captured
`total_frames` is `0` the code still divides, storing `NaN` (for
`frame_idx = 0`) or a clamped `100` (for positive `frame_idx`) instead
of reporting progress as unavailable. -/
theorem progress_captured_formula_spec (captured : Option Metadata)
    (s : UIState) (e : StreamEvent) (htype : e.type = MsgType.event) :
    (captured = none → (dispatch captured s e).progress = s.progress) ∧
    (∀ md, captured = some md →
      (dispatch captured s e).progress =
        progressOf (jsOrInt e.frame_idx) md.total_frames ∧
      (0 < md.total_frames → 0 ≤ jsOrInt e.frame_idx →
        ∃ q : ℚ, (dispatch captured s e).progress = JSNum.num q ∧
          q = min ((jsOrInt e.frame_idx : ℚ) / (md.total_frames : ℚ) * 100) 100 ∧
          0 ≤ q ∧ q ≤ 100) ∧
      (md.total_frames = 0 → jsOrInt e.frame_idx = 0 →
        (dispatch captured s e).progress = JSNum.nan) ∧
      (md.total_frames = 0 → 0 < jsOrInt e.frame_idx →
        (dispatch captured s e).progress = JSNum.num 100)) ∧
    (∀ sys : Sys, sys.ui.file = true →
      (startProcessing sys).captured = sys.ui.metadata) := by
  refine ⟨?_, ?_, fun sys hf => by simp [startProcessing, hf]⟩
  · intro h
    simp [dispatch, htype, h]
  · intro md hmd
    have hdp : (dispatch captured s e).progress =
        progressOf (jsOrInt e.frame_idx) md.total_frames := by
      simp [dispatch, htype, hmd]
    refine ⟨hdp, ?_, ?_, ?_⟩
    · intro hpos hfi
      have hcast : (0 : ℚ) < (md.total_frames : ℚ) := by exact_mod_cast hpos
      have hfi' : (0 : ℚ) ≤ (jsOrInt e.frame_idx : ℚ) := by exact_mod_cast hfi
      refine ⟨min ((jsOrInt e.frame_idx : ℚ) / (md.total_frames : ℚ) * 100) 100,
        ?_, rfl, ?_, min_le_right _ _⟩
      · rw [hdp]
        simp [progressOf, jsDiv, jsMul100, jsMin, ne_of_gt hcast]
      · exact le_min (by positivity) (by norm_num)
    · intro hz hfz
      rw [hdp]
      simp [progressOf, jsDiv, jsMul100, jsMin, hz, hfz]
    · intro hz hfp
      have hcast : (0 : ℚ) < (jsOrInt e.frame_idx : ℚ) := by exact_mod_cast hfp
      rw [hdp]
      simp [progressOf, jsDiv, jsMul100, jsMin, hz, ne_of_gt hcast, hcast]

/-- Witness for `progress_captured_formula_spec`: a session whose
closure captured `total_frames = 100` (a restart after a session that
stored that metadata) computes progress 50 for an event at
`frame_idx = 50`, and a session whose closure captured null leaves
progress untouched. -/
theorem progress_captured_formula_spec_witness :
    (dispatch (some { total_frames := 100, fps := 25 }) initState
      evMsg50).progress = JSNum.num 50 ∧
    (dispatch none initState evMsg50).progress = JSNum.num 0 := by
  constructor
  · have h := ((progress_captured_formula_spec
      (some { total_frames := 100, fps := 25 }) initState evMsg50
      (by decide)).2.1 { total_frames := 100, fps := 25 } rfl).1
    refine h.trans ?_
    norm_num [progressOf, jsDiv, jsMul100, jsMin, jsOrInt, evMsg50]
  · exact ((progress_captured_formula_spec none initState evMsg50
      (by decide)).1 rfl).trans (by decide)

/-- C4 counterexample: in the spec's own scenario run as a first session
(`metadata { total_frames = 100 }` then an event at `frame_idx = 50`)
the stored progress stays 0 — not the claimed 50% — because the
session's closure captured `metadata = null`; and a restarted session
whose stale captured metadata has `total_frames = 0` computes `0 / 0`
and stores `NaN` instead of reporting progress as unavailable. -/
theorem progress_stale_capture_cex :
    c4SysA.ui.metadata = some { total_frames := 100, fps := 25 } ∧
    c4SysA.ui.events = [evMsg50] ∧
    c4SysA.ui.progress = JSNum.num 0 ∧
    c4SysB.captured = some { total_frames := 0, fps := 25 } ∧
    c4SysB.ui.progress = JSNum.nan := by decide

/-- C1 (amended): on every playback tick the reconciler computes the
largest index whose `time_s` is non-null and `≤ t`; when such an index
exists the stored current index is updated to it, but when none exists
the handler leaves the state untouched — the stored index is "none"
after the tick only if it was already "none" before (as in the spec's
worked example, which queries from a fresh state). -/
theorem reconciler_selection_spec (s : UIState) (t : ℚ) :
    (0 ≤ findCurrentIdx s.events t →
      (handleVideoTimeUpdate s t).currentEventIdx = findCurrentIdx s.events t ∧
      qualifies (s.events.map (fun e => e.time_s)) t
        (findCurrentIdx s.events t).toNat ∧
      (∀ j : ℕ, (findCurrentIdx s.events t).toNat < j →
        ¬ qualifies (s.events.map (fun e => e.time_s)) t j)) ∧
    (findCurrentIdx s.events t = -1 →
      handleVideoTimeUpdate s t = s ∧
      ∀ j : ℕ, ¬ qualifies (s.events.map (fun e => e.time_s)) t j) := by
  rcases findLatestIdx_spec (s.events.map (fun e => e.time_s)) t with
    ⟨h1, h2⟩ | ⟨i, h1, h2, h3⟩
  · have hf : findCurrentIdx s.events t = -1 := h1
    constructor
    · intro hge
      rw [hf] at hge
      omega
    · intro _
      refine ⟨?_, h2⟩
      unfold handleVideoTimeUpdate
      split
      · rfl
      · rw [if_neg]
        intro hcon
        rw [hf] at hcon
        omega
  · have hf : findCurrentIdx s.events t = (i : ℤ) := h1
    constructor
    · intro _
      have htn : (findCurrentIdx s.events t).toNat = i := by
        rw [hf]; exact Int.toNat_natCast i
      refine ⟨?_, htn ▸ h2, fun j hj => h3 j (htn ▸ hj)⟩
      unfold handleVideoTimeUpdate
      split
      · next hlen =>
        exfalso
        have hev : s.events = [] := List.length_eq_zero.mp hlen
        rw [show findCurrentIdx s.events t = -1 by rw [hev]; rfl] at hf
        omega
      · by_cases hcur : findCurrentIdx s.events t = s.currentEventIdx
        · rw [if_neg (fun hcon => hcon.2 hcur)]
          exact hcur.symm
        · rw [if_pos ⟨by rw [hf]; exact Int.ofNat_nonneg i, hcur⟩]
    · intro hcon
      rw [hcon] at hf
      omega

/-- Witness for `reconciler_selection_spec`: the spec's worked example,
events at `time_s = [0, 1, 2, 5]` queried from a fresh state, selects
index 1 at `t = 1.5`, index 0 at `t = 0`, none at `t = -1`, and index 3
at `t = 10`. -/
theorem reconciler_selection_spec_witness :
    (handleVideoTimeUpdate exState (mkRat 3 2)).currentEventIdx = 1 ∧
    (handleVideoTimeUpdate exState 0).currentEventIdx = 0 ∧
    (handleVideoTimeUpdate exState (-1)).currentEventIdx = -1 ∧
    (handleVideoTimeUpdate exState 10).currentEventIdx = 3 := by
  refine ⟨?_, ?_, ?_, ?_⟩
  · exact ((reconciler_selection_spec exState (mkRat 3 2)).1 (by decide)).1.trans
      (by decide)
  · exact ((reconciler_selection_spec exState 0).1 (by decide)).1.trans
      (by decide)
  · exact (congrArg UIState.currentEventIdx
      (((reconciler_selection_spec exState (-1)).2 (by decide)).1)).trans
      (by decide)
  · exact ((reconciler_selection_spec exState 10).1 (by decide)).1.trans
      (by decide)

/-- C1 counterexample: in a reachable state whose stored index is 0, a
playback update at `t = -1` (where no event with non-null `time_s ≤ t`
exists) leaves the stored current index at 0 instead of holding
"none". -/
theorem reconciler_holds_stale_index_cex :
    c1State.currentEventIdx = 0 ∧
    findCurrentIdx c1State.events (-1) = -1 ∧
    (handleVideoTimeUpdate c1State (-1)).currentEventIdx = 0 := by decide

/-- C10: once the stored current index is non-negative, no playback
update can take it back to "none" — when no event qualifies the handler
leaves the state untouched — message dispatch never writes the index,
and only selecting a new file or starting a new session reset it to
`-1`. -/
theorem currentIdx_monotone (s : UIState) (t : ℚ) :
    (0 ≤ s.currentEventIdx → 0 ≤ (handleVideoTimeUpdate s t).currentEventIdx) ∧
    (findCurrentIdx s.events t < 0 → handleVideoTimeUpdate s t = s) ∧
    (∀ (cap : Option Metadata) e,
      (dispatch cap s e).currentEventIdx = s.currentEventIdx) ∧
    (handleFile s true).currentEventIdx = -1 ∧
    (∀ sys : Sys, sys.ui.file = true →
      (startProcessing sys).ui.currentEventIdx = -1) := by
  refine ⟨?_, ?_, ?_, by simp [handleFile], fun sys h => by
    simp [startProcessing, h, startReset]⟩
  · intro h
    simp only [handleVideoTimeUpdate]
    split_ifs with h1 h2
    · exact h
    · exact h2.1
    · exact h
  · intro hneg
    simp only [handleVideoTimeUpdate]
    split_ifs with h1 h2
    · rfl
    · exact absurd h2.1 (not_le.mpr hneg)
    · rfl
  · intro cap e
    cases htype : e.type
    · simp [dispatch, htype]
    · cases hmd : cap <;> simp [dispatch, htype, hmd]
    · simp [dispatch, htype]
    · simp [dispatch, htype]
    · simp [dispatch, htype]

/-- Witness for `currentIdx_monotone`: in the concrete state whose index
is 0, the update at `t = -1` keeps the index non-negative and in fact
changes nothing. -/
theorem currentIdx_monotone_witness :
    0 ≤ (handleVideoTimeUpdate c1State (-1)).currentEventIdx ∧
    handleVideoTimeUpdate c1State (-1) = c1State :=
  ⟨(currentIdx_monotone c1State (-1)).1 (by decide),
   (currentIdx_monotone c1State (-1)).2.1 (by decide)⟩

/-- C2: the decoder's output depends only on the concatenated logical
stream, not on the chunking — two chunk sequences with the same
concatenation yield the identical ordered message sequence — and the
emitted messages come exactly from the complete (newline-terminated)
lines, so a partial trailing line is buffered, never emitted early. -/
theorem decoder_chunk_boundary_independent
    (parse : List Char → Option StreamEvent)
    (chunks1 chunks2 : List (List Char))
    (h : joinChunks chunks1 = joinChunks chunks2) :
    decodeChunks parse chunks1 = decodeChunks parse chunks2 ∧
    (decodeChunks parse chunks1).out =
      (splitLines (joinChunks chunks1)).1.filterMap (procLine parse) := by
  constructor
  · rw [decodeChunks_eq_join, decodeChunks_eq_join, h]
  · rw [decodeChunks_eq_join]
    simp [feed]

/-- Witness for `decoder_chunk_boundary_independent`: a stream split in
the middle of the marker decodes identically to the unsplit stream. -/
theorem decoder_chunk_boundary_independent_witness :
    decodeChunks parseX [['d', 'a'], ['t', 'a', ':', ' ', 'e', '\n']] =
      decodeChunks parseX [sampleStream] :=
  (decoder_chunk_boundary_independent parseX
    [['d', 'a'], ['t', 'a', ':', ' ', 'e', '\n']] [sampleStream]
    (by decide)).1

/-- C3: one malformed marker line among otherwise valid lines is skipped
(the `catch` logs and continues): the decoded output is exactly the
messages of the valid lines before and after it, in unchanged order, the
run never aborts, no synthetic message is emitted for the bad line, and
when every other line parses the output has exactly `N - 1` messages. -/
theorem decoder_malformed_line_recovery
    (parse : List Char → Option StreamEvent) (pre post : List (List Char))
    (bad : List Char)
    (hnl : ∀ l ∈ pre ++ bad :: post, '\n' ∉ l)
    (hbad : procLine parse bad = none) :
    (decodeChunks parse [linesToStream (pre ++ bad :: post)]).out =
      pre.filterMap (procLine parse) ++ post.filterMap (procLine parse) ∧
    ((∀ l ∈ pre ++ post, (procLine parse l).isSome) →
      (decodeChunks parse [linesToStream (pre ++ bad :: post)]).out.length =
        pre.length + post.length) := by
  have hsplit := splitLines_linesToStream (pre ++ bad :: post) hnl
  have hout : (decodeChunks parse [linesToStream (pre ++ bad :: post)]).out =
      (pre ++ bad :: post).filterMap (procLine parse) := by
    simp [decodeChunks, feed, hsplit]
  constructor
  · rw [hout]
    simp [List.filterMap_append, List.filterMap_cons, hbad]
  · intro hall
    have h1 : (pre.filterMap (procLine parse)).length = pre.length :=
      length_filterMap_of_isSome _ _
        (fun x hx => hall x (List.mem_append_left _ hx))
    have h2 : (post.filterMap (procLine parse)).length = post.length :=
      length_filterMap_of_isSome _ _
        (fun x hx => hall x (List.mem_append_right _ hx))
    rw [hout]
    simp [List.filterMap_append, List.filterMap_cons, hbad, h1, h2]

/-- Witness for `decoder_malformed_line_recovery`: a corrupted line
between two valid ones yields exactly two decoded messages. -/
theorem decoder_malformed_line_recovery_witness :
    (decodeChunks parseX
      [linesToStream ([goodLine] ++ badLine :: [goodLine])]).out.length = 2 := by
  have h := decoder_malformed_line_recovery parseX [goodLine] [goodLine]
    badLine (by decide) (by decide)
  exact (h.2 (by decide)).trans (by decide)

/-- C6 (amended): the session controller does not treat the response
body ending without a `done` message as an error — after the reader
reports end of stream the loop breaks and the promise chain completes
silently.  The error channel changes only when a decoded `error` message
is dispatched, and the `processing` flag changes only through decoded
`summary`/`done`/`error` messages. -/
theorem stream_end_error_only_from_messages
    (parse : List Char → Option StreamEvent) (captured : Option Metadata)
    (chunks : List (List Char)) (s : UIState)
    (hne : ∀ m ∈ (decodeChunks parse chunks).out, m.type ≠ MsgType.error) :
    (runSession parse captured chunks s).error = s.error ∧
    ((∀ m ∈ (decodeChunks parse chunks).out, m.type ≠ MsgType.summary ∧
        m.type ≠ MsgType.done ∧ m.type ≠ MsgType.error) →
      (runSession parse captured chunks s).processing = s.processing) := by
  constructor
  · exact foldl_dispatch_error captured _ s hne
  · intro hall
    exact foldl_dispatch_processing captured _ s hall

/-- Witness for `stream_end_error_only_from_messages`: a concrete stream
holding a single event message leaves the error channel empty. -/
theorem stream_end_error_only_from_messages_witness :
    (runSession parseX none [sampleStream] initState).error = none :=
  ((stream_end_error_only_from_messages parseX none [sampleStream] initState
    (by decide)).1).trans (by decide)

/-- C6 counterexample: a session whose stream delivers one event and
then closes without any `done` message ends with no error signalled (and
the `processing` flag still set) — the controller does not report abrupt
termination. -/
theorem stream_end_without_done_silent_cex :
    (runSession parseX none [sampleStream]
      (startReset { initState with file := true })).error = none ∧
    (runSession parseX none [sampleStream]
      (startReset { initState with file := true })).processing = true := by
  decide

/-- C8: starting a new session aborts the previous controller before the
new request, resets the Timeline, metadata, summary, current index,
progress and latch, makes the fresh session the only live one, and no
dispatch tagged with a stale (cancelled) session number can ever append
to the new session's Timeline. -/
theorem session_start_isolation (sys : Sys) (h : sys.ui.file = true)
    (stale : List (Nat × StreamEvent))
    (hs : ∀ p ∈ stale, p.1 ≠ sys.nextSid) :
    (startProcessing sys).ui.events = [] ∧
    (startProcessing sys).ui.metadata = none ∧
    (startProcessing sys).ui.summary = none ∧
    (startProcessing sys).ui.currentEventIdx = -1 ∧
    (startProcessing sys).ui.progress = JSNum.num 0 ∧
    (startProcessing sys).ui.alertShown = false ∧
    (startProcessing sys).live = some sys.nextSid ∧
    (startProcessing sys).abortRef = some sys.nextSid ∧
    (stale.foldl (fun s2 p => dispatchSys s2 p.1 p.2)
      (startProcessing sys)).ui.events = [] := by
  have hstart : startProcessing sys =
      { ui := startReset sys.ui
        abortRef := some sys.nextSid
        live := some sys.nextSid
        captured := sys.ui.metadata
        nextSid := sys.nextSid + 1 } := by
    simp [startProcessing, h]
  rw [hstart]
  refine ⟨rfl, rfl, rfl, rfl, rfl, rfl, rfl, rfl, ?_⟩
  rw [foldl_dispatchSys_stale stale _ sys.nextSid rfl hs]
  rfl

/-- Witness for `session_start_isolation`: a stale dispatch tagged with
the cancelled session 0 leaves the fresh session's Timeline empty. -/
theorem session_start_isolation_witness :
    ([((0 : Nat), evMsg50)].foldl (fun s2 p => dispatchSys s2 p.1 p.2)
      (startProcessing sys0)).ui.events = [] :=
  (session_start_isolation sys0 (by decide) [((0 : Nat), evMsg50)]
    (by decide)).2.2.2.2.2.2.2.2

end VideoDemo
